import Mathlib

set_option linter.unusedVariables false

/-!
Verification of the `gh run watch` polling loop (pkg/cmd/run/watch/watch.go).

The command code is embedded shallowly: each API call (run fetch, jobs fetch,
annotation fetch, pull-request lookup, interactive prompt) is an oracle response
consumed from the input, and every externally observable step of the command
(fetch, write to the output stream, sleep) is recorded in an event trace.
Output writes are kept symbolic, one event constructor per Fprint site of
watch.go, carrying the data that site prints.
-/

namespace Watch

/-- Modelled from the spec: the terminal run status constant of the shared
package (a run transitions through statuses ending in "completed"). -/
def Completed : String := "completed"

/-- Modelled from the spec: the conclusion value of a failed run in the shared
package. -/
def Failure : String := "failure"

/-- Modelled from the spec: a workflow run snapshot with the fields the watch
loop reads: identifier, status, conclusion, creation timestamp. -/
structure Run where
  id : Nat
  status : String
  conclusion : String
  createdAt : Int
deriving DecidableEq

/-- Modelled from the spec: a job belonging to a run. -/
structure Job where
  id : Nat
  name : String
deriving DecidableEq

/-- Modelled from the spec: an annotation attached to one job, carrying a
message and a severity level. -/
structure Annot where
  jobId : Nat
  message : String
  level : String
deriving DecidableEq

/-- The fields of WatchOptions that the loop reads: the polling interval
(seconds, default 2) and the current time used for the elapsed-time display. -/
structure WatchOptions where
  interval : Int
  now : Int
deriving DecidableEq

/-- The default polling interval set in NewCmdWatch (`Interval: 2`). -/
def defaultInterval : Int := 2

/-- Nanoseconds per second, the value of Go's time.Second. -/
def nsPerSecond : Int := 1000000000

/-- The nanosecond count passed to time.Sleep every iteration:
`time.Duration(opts.Interval * 1000)`, i.e. Interval * 1000 nanoseconds. -/
def sleepNs (interval : Int) : Int := interval * 1000

/-- One symbolic write to the output stream; one constructor per Fprint site of
watch.go, carrying the data that site prints. -/
inductive OutEvent
  | clearScreen
  | cursorHome
  | clearToEnd
  | refreshLine (interval : Int)
  | blank
  | header (run : Run) (ago : Int) (pr : String)
  | jobsTitle
  | jobsList (jobs : List Job)
  | annTitle
  | annList (anns : List Annot)
deriving DecidableEq

/-- One observable step of the command: a prompt, an API call, an output write,
or a sleep (argument in nanoseconds). -/
inductive Event
  | prompt
  | fetchRun
  | fetchPR
  | fetchJobs
  | fetchAnnotations (idx : Nat)
  | out (o : OutEvent)
  | sleep (ns : Int)
deriving DecidableEq

/-- The oracle responses one loop iteration consumes: the run re-fetch, the jobs
fetch, and the annotation fetch for the job at each position. -/
structure IterInput where
  runResp : Except String Run
  jobsResp : Except String (List Job)
  annResp : Nat → Except String (List Annot)

/-- The annotation loop of renderRun: fetch annotations for each job in order,
stop at the first failure, concatenate the results. `i` is the position of the
first job of `jobs` in the overall job list; the second component is the list of
fetch events performed. -/
def annotLoop (f : Nat → Except String (List Annot)) :
    List Job → Nat → Except String (List Annot) × List Event
  | [], _ => (.ok [], [])
  | _ :: rest, i =>
    match f i with
    | .error e => (.error e, [.fetchAnnotations i])
    | .ok as =>
      match annotLoop f rest (i+1) with
      | (.error e, evs) => (.error e, .fetchAnnotations i :: evs)
      | (.ok more, evs) => (.ok (as ++ more), .fetchAnnotations i :: evs)

/-- The header block printed each iteration: cursor to origin, clear to end of
screen, the refresh notice, a blank line, the run header (with elapsed time and
the pull-request suffix), a blank line. -/
def headEvents (opts : WatchOptions) (pr : String) (newRun : Run) : List Event :=
  [.out .cursorHome, .out .clearToEnd, .out (.refreshLine opts.interval),
   .out .blank, .out (.header newRun (opts.now - newRun.createdAt) pr), .out .blank]

/-- The body block printed each iteration when not skipped: the JOBS title and
job table, then the annotations section only when at least one annotation
exists. -/
def bodyEvents (jobs : List Job) (anns : List Annot) : List Event :=
  [.out .jobsTitle, .out (.jobsList jobs)] ++
    (if anns = [] then [] else [.out .blank, .out .annTitle, .out (.annList anns)])

/-- renderRun from watch.go: re-fetch the run (by the id of the previous
snapshot), fetch its jobs, fetch annotations per job in order, and only then
redraw the report. Any fetch failure returns the error wrapped with a
stage-identifying message before anything is written. When the job list is
empty and the run concluded in failure the body block is skipped. Returns the
freshly fetched run on success, paired with the event trace of the
iteration. -/
def renderRun (opts : WatchOptions) (run : Run) (pr : String) (inp : IterInput) :
    Except String Run × List Event :=
  match inp.runResp with
  | .error e => (.error ("failed to get run: " ++ e), [.fetchRun])
  | .ok newRun =>
    match inp.jobsResp with
    | .error e => (.error ("failed to get jobs: " ++ e), [.fetchRun, .fetchJobs])
    | .ok jobs =>
      match annotLoop inp.annResp jobs 0 with
      | (.error e, aevs) =>
        (.error ("failed to get annotations: " ++ e), .fetchRun :: .fetchJobs :: aevs)
      | (.ok anns, aevs) =>
        if jobs = [] ∧ newRun.conclusion = Failure then
          (.ok newRun, .fetchRun :: .fetchJobs :: (aevs ++ headEvents opts pr newRun))
        else
          (.ok newRun, .fetchRun :: .fetchJobs ::
            (aevs ++ headEvents opts pr newRun ++ bodyEvents jobs anns))

/-- The result of the whole command. -/
inductive Outcome
  | done
  | failed (msg : String)
  | usageError (msg : String)
  | starved
deriving DecidableEq

/-- The polling loop of watchRun: while the current snapshot is not completed,
run one renderRun iteration, abort on its error, sleep, and continue with the
run that iteration fetched. Iteration inputs are consumed from a schedule; an
exhausted schedule with a still-running run is reported as starved. -/
def watchLoop (opts : WatchOptions) (pr : String) :
    Run → List IterInput → Outcome × List Event
  | run, [] => if run.status = Completed then (.done, []) else (.starved, [])
  | run, inp :: rest =>
    if run.status = Completed then (.done, [])
    else
      match renderRun opts run pr inp with
      | (.error e, tr) => (.failed e, tr)
      | (.ok newRun, tr) =>
        let res := watchLoop opts pr newRun rest
        (res.1, tr ++ (.sleep (sleepNs opts.interval) :: res.2))

/-- The header suffix computed from the pull-request lookup: " #num" when the
lookup succeeds, empty when it fails (the error is swallowed). -/
def prNumberOf : Except String Int → String
  | .ok n => " #" ++ toString n
  | .error _ => ""

/-- The oracle responses the whole watch consumes: the interactive prompt (used
only when prompting), the initial run fetch, the pull-request lookup, and one
IterInput per loop iteration. -/
structure WatchInput where
  promptResp : Except String String
  initRunResp : Except String Run
  prResp : Except String Int
  iters : List IterInput

/-- watchRun from watch.go, after http-client and base-repo setup: optionally
prompt for a run, fetch the initial run, perform the best-effort pull-request
lookup, clear the screen, and enter the polling loop. -/
def watchRun (opts : WatchOptions) (prompt : Bool) (w : WatchInput) :
    Outcome × List Event :=
  let phase : Outcome × List Event :=
    match w.initRunResp with
    | .error e => (.failed ("failed to get run: " ++ e), [.fetchRun])
    | .ok run =>
      let pr := prNumberOf w.prResp
      let res := watchLoop opts pr run w.iters
      (res.1, .fetchRun :: .fetchPR :: .out .clearScreen :: res.2)
  if prompt then
    match w.promptResp with
    | .error e => (.failed e, [.prompt])
    | .ok _ => (phase.1, .prompt :: phase.2)
  else phase

/-- The argument handling of NewCmdWatch RunE: a positional argument sets the
run id; with no argument, a session that cannot prompt gets a usage error and
one that can switches to prompting. -/
inductive ArgsResult
  | flagError (msg : String)
  | proceed (runID : String) (prompt : Bool)
deriving DecidableEq

/-- NewCmdWatch RunE argument handling from watch.go. -/
def newCmdWatchArgs : List String → Bool → ArgsResult
  | a :: _, _ => .proceed a false
  | [], canPrompt =>
    if !canPrompt then .flagError "run ID required when not running interactively"
    else .proceed "" true

/-- The command entry: argument handling followed by watchRun; a usage error
returns before any fetch, so its trace is empty. -/
def runCmd (opts : WatchOptions) (args : List String) (canPrompt : Bool)
    (w : WatchInput) : Outcome × List Event :=
  match newCmdWatchArgs args canPrompt with
  | .flagError msg => (.usageError msg, [])
  | .proceed _ prompt => watchRun opts prompt w

/-- Recognizer for the run-header output event (one per successful redraw). -/
def isHeader : Event → Bool
  | .out (.header _ _ _) => true
  | _ => false

/-- Number of run headers (hence full redraws) in a trace. -/
def renderCount (tr : List Event) : Nat := (tr.filter isHeader).length

/-- Recognizer for sleep events. -/
def isSleep : Event → Bool
  | .sleep _ => true
  | _ => false

/-- Number of sleeps in a trace. -/
def sleepCount (tr : List Event) : Nat := (tr.filter isSleep).length

/-- Recognizer for output-stream writes. -/
def isOut : Event → Bool
  | .out _ => true
  | _ => false

/-- Recognizer for the pull-request lookup. -/
def isFetchPR : Event → Bool
  | .fetchPR => true
  | _ => false

/-- The pull-request suffixes carried by the header events of a trace. -/
def headerPrs (tr : List Event) : List String :=
  tr.filterMap fun e =>
    match e with
    | .out (.header _ _ p) => some p
    | _ => none

/-- The annotation fetch events for n jobs starting at position i. -/
def annEvents : Nat → Nat → List Event
  | _, 0 => []
  | i, n+1 => .fetchAnnotations i :: annEvents (i+1) n

/-- The ok-value of an annotation response, defaulting to the empty list. -/
def okValD : Except String (List Annot) → List Annot
  | .ok v => v
  | .error _ => []

/-- The concatenation of the ok-values of f at positions i, ..., i+n-1. -/
def annotsFrom (f : Nat → Except String (List Annot)) : Nat → Nat → List Annot
  | 0, _ => []
  | n+1, i => okValD (f i) ++ annotsFrom f n (i+1)

/-- A fully successful iteration: the run the fetch returns, its jobs, and the
per-job annotation lists; toInput packages it as the oracle responses. -/
structure OkIter where
  run : Run
  jobs : List Job
  anns : List (List Annot)

/-- The iteration input whose three fetches all succeed with the given data. -/
def OkIter.toInput (it : OkIter) : IterInput :=
  ⟨.ok it.run, .ok it.jobs, fun i => .ok (it.anns.getD i [])⟩

/-! ### Basic facts about the annotation loop -/

/-- Every event the annotation loop emits is an annotation fetch. -/
lemma annotLoop_events (f : Nat → Except String (List Annot)) :
    ∀ (jobs : List Job) (i : Nat) (e : Event),
      e ∈ (annotLoop f jobs i).2 → ∃ j, e = .fetchAnnotations j
  | [], i, e, h => by simp [annotLoop] at h
  | _ :: rest, i, e, h => by
    rw [annotLoop] at h
    rcases hf : f i with msg | as <;> rw [hf] at h
    · simp at h
      exact ⟨i, h⟩
    · rcases hrec : annotLoop f rest (i+1) with ⟨res, evs⟩
      rw [hrec] at h
      rcases res with msg | more <;> simp at h <;>
        rcases h with h | h
      · exact ⟨i, h⟩
      · exact annotLoop_events f rest (i+1) e (by rw [hrec]; exact h)
      · exact ⟨i, h⟩
      · exact annotLoop_events f rest (i+1) e (by rw [hrec]; exact h)

/-- Every event in `annEvents` is an annotation fetch. -/
lemma annEvents_events : ∀ (n i : Nat) (e : Event),
    e ∈ annEvents i n → ∃ j, e = .fetchAnnotations j
  | 0, i, e, h => by simp [annEvents] at h
  | n+1, i, e, h => by
    rw [annEvents] at h
    rcases List.mem_cons.mp h with h | h
    · exact ⟨i, h⟩
    · exact annEvents_events n (i+1) e h

/-- When every response up to the number of jobs is a success, the annotation
loop succeeds, aggregates the responses in order, and fetches once per job. -/
lemma annotLoop_allOk (f : Nat → Except String (List Annot)) :
    ∀ (jobs : List Job) (i : Nat),
      (∀ k, k < jobs.length → ∃ v, f (i+k) = .ok v) →
      annotLoop f jobs i = (.ok (annotsFrom f jobs.length i), annEvents i jobs.length)
  | [], i, _ => rfl
  | _ :: rest, i, h => by
    obtain ⟨v, hv⟩ := h 0 (by simp)
    rw [show i + 0 = i from rfl] at hv
    have ih := annotLoop_allOk f rest (i+1) (fun k hk => by
      obtain ⟨w, hw⟩ := h (k+1) (by simpa using Nat.succ_lt_succ hk)
      exact ⟨w, by rw [show i + 1 + k = i + (k+1) by omega]; exact hw⟩)
    rw [annotLoop, hv, ih]
    simp [annotsFrom, annEvents, okValD, hv]

/-- When the response for the job at relative position k is the first failure,
the annotation loop stops there: it returns that error and has fetched exactly
for the jobs at positions i, ..., i+k. -/
lemma annotLoop_firstErr (f : Nat → Except String (List Annot)) :
    ∀ (jobs : List Job) (k i : Nat) (e : String),
      k < jobs.length → f (i+k) = .error e →
      (∀ j, j < k → ∃ v, f (i+j) = .ok v) →
      annotLoop f jobs i = (.error e, annEvents i (k+1))
  | [], k, i, e, hk, _, _ => absurd hk (by simp)
  | _ :: rest, 0, i, e, hk, he, _ => by
    rw [show i + 0 = i from rfl] at he
    rw [annotLoop, he]
    rfl
  | _ :: rest, k+1, i, e, hk, he, hok => by
    obtain ⟨v, hv⟩ := hok 0 (by omega)
    rw [show i + 0 = i from rfl] at hv
    have ih := annotLoop_firstErr f rest k (i+1) e (by simpa using hk)
      (by rw [show i + 1 + k = i + (k+1) by omega]; exact he)
      (fun j hj => by
        obtain ⟨w, hw⟩ := hok (j+1) (by omega)
        exact ⟨w, by rw [show i + 1 + j = i + (j+1) by omega]; exact hw⟩)
    rw [annotLoop, hv, ih]
    rfl

/-- `annotsFrom` over the responses built from a list of per-job annotation
lists is the flattening of that list. -/
lemma annotsFrom_getD (anns : List (List Annot)) :
    ∀ (n i : Nat), i + n = anns.length →
      annotsFrom (fun j => .ok (anns.getD j [])) n i = (anns.drop i).flatten
  | 0, i, hlen => by
    have h : anns.drop i = [] := List.drop_eq_nil_of_le (by omega)
    simp [annotsFrom, h]
  | n+1, i, hlen => by
    have hi : i < anns.length := by omega
    have ih := annotsFrom_getD anns n (i+1) (by omega)
    rw [annotsFrom, ih, List.drop_eq_getElem_cons hi, List.flatten_cons,
      show okValD (.ok (anns.getD i [])) = anns.getD i [] from rfl,
      List.getD_eq_getElem anns [] hi]

/-! ### Characterization of the four outcomes of renderRun -/

/-- A failed run re-fetch: the wrapped error, after a single fetch event. -/
lemma renderRun_runErr (opts : WatchOptions) (run : Run) (pr : String)
    (e : String) (jr : Except String (List Job))
    (f : Nat → Except String (List Annot)) :
    renderRun opts run pr ⟨.error e, jr, f⟩ =
      (.error ("failed to get run: " ++ e), [.fetchRun]) := rfl

/-- A failed jobs fetch: the wrapped error; the run and jobs fetches happened,
no annotation fetch did. -/
lemma renderRun_jobsErr (opts : WatchOptions) (run : Run) (pr : String)
    (newRun : Run) (e : String) (f : Nat → Except String (List Annot)) :
    renderRun opts run pr ⟨.ok newRun, .error e, f⟩ =
      (.error ("failed to get jobs: " ++ e), [.fetchRun, .fetchJobs]) := rfl

/-- A failed annotation fetch: the wrapped error, after the run and jobs
fetches and the annotation fetches the annotation loop performed. -/
lemma renderRun_annErr (opts : WatchOptions) (run : Run) (pr : String)
    (newRun : Run) (jobs : List Job) (f : Nat → Except String (List Annot))
    (e : String) (aevs : List Event)
    (h : annotLoop f jobs 0 = (.error e, aevs)) :
    renderRun opts run pr ⟨.ok newRun, .ok jobs, f⟩ =
      (.error ("failed to get annotations: " ++ e),
        .fetchRun :: .fetchJobs :: aevs) := by
  rw [renderRun]
  simp only
  rw [h]

/-- All fetches succeeded: the freshly fetched run is returned and the report
is written after the fetch events; the body block is dropped exactly when the
job list is empty and the fetched run concluded in failure. -/
lemma renderRun_ok (opts : WatchOptions) (run : Run) (pr : String)
    (newRun : Run) (jobs : List Job) (f : Nat → Except String (List Annot))
    (anns : List Annot) (aevs : List Event)
    (h : annotLoop f jobs 0 = (.ok anns, aevs)) :
    renderRun opts run pr ⟨.ok newRun, .ok jobs, f⟩ =
      (.ok newRun, .fetchRun :: .fetchJobs ::
        (aevs ++ headEvents opts pr newRun ++
          (if jobs = [] ∧ newRun.conclusion = Failure then []
           else bodyEvents jobs anns))) := by
  rw [renderRun]
  simp only
  rw [h]
  split
  all_goals rename_i heq
  · exact absurd heq (by simp)
  · injection heq with h1 h2
    injection h1 with h1
    subst h1
    subst h2
    split <;> simp

/-- On a fully successful iteration input, renderRun returns the fetched run
and emits one annotation fetch per job, the header block, and the body block
unless the empty-jobs/failed-run case applies. -/
lemma renderRun_okIter (opts : WatchOptions) (run : Run) (pr : String)
    (it : OkIter) :
    renderRun opts run pr it.toInput =
      (.ok it.run, .fetchRun :: .fetchJobs ::
        (annEvents 0 it.jobs.length ++ headEvents opts pr it.run ++
          (if it.jobs = [] ∧ it.run.conclusion = Failure then []
           else bodyEvents it.jobs
             (annotsFrom (fun i => .ok (it.anns.getD i [])) it.jobs.length 0)))) :=
  renderRun_ok opts run pr it.run it.jobs _ _ _
    (annotLoop_allOk _ it.jobs 0 (fun k _ => ⟨_, rfl⟩))

/-! ### Counting and classifying trace events -/

lemma renderCount_append (a b : List Event) :
    renderCount (a ++ b) = renderCount a + renderCount b := by
  simp [renderCount, List.filter_append]

lemma sleepCount_append (a b : List Event) :
    sleepCount (a ++ b) = sleepCount a + sleepCount b := by
  simp [sleepCount, List.filter_append]

lemma headerPrs_append (a b : List Event) :
    headerPrs (a ++ b) = headerPrs a ++ headerPrs b := by
  simp [headerPrs, List.filterMap_append]

lemma annEvents_noHeader (i n : Nat) : (annEvents i n).filter isHeader = [] :=
  List.filter_eq_nil_iff.mpr (by
    intro e he
    rcases annEvents_events n i e he with ⟨j, rfl⟩
    simp [isHeader])

lemma annEvents_noSleep (i n : Nat) : (annEvents i n).filter isSleep = [] :=
  List.filter_eq_nil_iff.mpr (by
    intro e he
    rcases annEvents_events n i e he with ⟨j, rfl⟩
    simp [isSleep])

lemma annEvents_noOut (i n : Nat) : (annEvents i n).filter isOut = [] :=
  List.filter_eq_nil_iff.mpr (by
    intro e he
    rcases annEvents_events n i e he with ⟨j, rfl⟩
    simp [isOut])

lemma annEvents_noPR (i n : Nat) : (annEvents i n).filter isFetchPR = [] :=
  List.filter_eq_nil_iff.mpr (by
    intro e he
    rcases annEvents_events n i e he with ⟨j, rfl⟩
    simp [isFetchPR])

lemma annEvents_nonOut (i n : Nat) :
    (annEvents i n).filter (fun e => !isOut e) = annEvents i n :=
  List.filter_eq_self.mpr (by
    intro e he
    rcases annEvents_events n i e he with ⟨j, rfl⟩
    simp [isOut])

lemma annEvents_headerPrs (i n : Nat) : headerPrs (annEvents i n) = [] :=
  List.filterMap_eq_nil_iff.mpr (by
    intro e he
    rcases annEvents_events n i e he with ⟨j, rfl⟩
    rfl)

lemma annotLoopEvs_noOut (f : Nat → Except String (List Annot))
    (jobs : List Job) (i : Nat) :
    (annotLoop f jobs i).2.filter isOut = [] :=
  List.filter_eq_nil_iff.mpr (by
    intro e he
    rcases annotLoop_events f jobs i e he with ⟨j, rfl⟩
    simp [isOut])

lemma annotLoopEvs_nonOut (f : Nat → Except String (List Annot))
    (jobs : List Job) (i : Nat) :
    (annotLoop f jobs i).2.filter (fun e => !isOut e) = (annotLoop f jobs i).2 :=
  List.filter_eq_self.mpr (by
    intro e he
    rcases annotLoop_events f jobs i e he with ⟨j, rfl⟩
    simp [isOut])

lemma annotLoopEvs_noPR (f : Nat → Except String (List Annot))
    (jobs : List Job) (i : Nat) :
    (annotLoop f jobs i).2.filter isFetchPR = [] :=
  List.filter_eq_nil_iff.mpr (by
    intro e he
    rcases annotLoop_events f jobs i e he with ⟨j, rfl⟩
    simp [isFetchPR])

lemma annotLoopEvs_headerPrs (f : Nat → Except String (List Annot))
    (jobs : List Job) (i : Nat) :
    headerPrs (annotLoop f jobs i).2 = [] :=
  List.filterMap_eq_nil_iff.mpr (by
    intro e he
    rcases annotLoop_events f jobs i e he with ⟨j, rfl⟩
    rfl)

lemma headEvents_filter_isHeader (opts : WatchOptions) (pr : String) (newRun : Run) :
    (headEvents opts pr newRun).filter isHeader =
      [.out (.header newRun (opts.now - newRun.createdAt) pr)] := by
  simp [headEvents, isHeader]

lemma headEvents_noSleep (opts : WatchOptions) (pr : String) (newRun : Run) :
    (headEvents opts pr newRun).filter isSleep = [] := by
  simp [headEvents, isSleep]

lemma headEvents_allOut (opts : WatchOptions) (pr : String) (newRun : Run) :
    (headEvents opts pr newRun).filter isOut = headEvents opts pr newRun := by
  simp [headEvents, isOut]

lemma headEvents_noNonOut (opts : WatchOptions) (pr : String) (newRun : Run) :
    (headEvents opts pr newRun).filter (fun e => !isOut e) = [] := by
  simp [headEvents, isOut]

lemma headEvents_noPR (opts : WatchOptions) (pr : String) (newRun : Run) :
    (headEvents opts pr newRun).filter isFetchPR = [] := by
  simp [headEvents, isFetchPR]

lemma headEvents_headerPrs (opts : WatchOptions) (pr : String) (newRun : Run) :
    headerPrs (headEvents opts pr newRun) = [pr] := by
  simp [headEvents, headerPrs]

lemma bodyEvents_noHeader (jobs : List Job) (anns : List Annot) :
    (bodyEvents jobs anns).filter isHeader = [] := by
  by_cases h : anns = [] <;> simp [bodyEvents, h, isHeader]

lemma bodyEvents_noSleep (jobs : List Job) (anns : List Annot) :
    (bodyEvents jobs anns).filter isSleep = [] := by
  by_cases h : anns = [] <;> simp [bodyEvents, h, isSleep]

lemma bodyEvents_allOut (jobs : List Job) (anns : List Annot) :
    (bodyEvents jobs anns).filter isOut = bodyEvents jobs anns := by
  by_cases h : anns = [] <;> simp [bodyEvents, h, isOut]

lemma bodyEvents_noNonOut (jobs : List Job) (anns : List Annot) :
    (bodyEvents jobs anns).filter (fun e => !isOut e) = [] := by
  by_cases h : anns = [] <;> simp [bodyEvents, h, isOut]

lemma bodyEvents_noPR (jobs : List Job) (anns : List Annot) :
    (bodyEvents jobs anns).filter isFetchPR = [] := by
  by_cases h : anns = [] <;> simp [bodyEvents, h, isFetchPR]

lemma bodyEvents_headerPrs (jobs : List Job) (anns : List Annot) :
    headerPrs (bodyEvents jobs anns) = [] := by
  by_cases h : anns = [] <;> simp [bodyEvents, h, headerPrs]

/-! ### The trace of a fully successful iteration -/

lemma renderRun_okIter_fst (opts : WatchOptions) (run : Run) (pr : String)
    (it : OkIter) : (renderRun opts run pr it.toInput).1 = .ok it.run := by
  rw [renderRun_okIter]

lemma renderRun_okIter_renderCount (opts : WatchOptions) (run : Run)
    (pr : String) (it : OkIter) :
    renderCount (renderRun opts run pr it.toInput).2 = 1 := by
  rw [renderRun_okIter]
  by_cases hc : it.jobs = [] ∧ it.run.conclusion = Failure <;>
    simp [hc, renderCount, List.filter_cons, List.filter_append, isHeader,
      annEvents_noHeader, headEvents_filter_isHeader, bodyEvents_noHeader]

lemma renderRun_okIter_sleepCount (opts : WatchOptions) (run : Run)
    (pr : String) (it : OkIter) :
    sleepCount (renderRun opts run pr it.toInput).2 = 0 := by
  rw [renderRun_okIter]
  by_cases hc : it.jobs = [] ∧ it.run.conclusion = Failure <;>
    simp [hc, sleepCount, List.filter_cons, List.filter_append, isSleep,
      annEvents_noSleep, headEvents_noSleep, bodyEvents_noSleep]

/-! ### The polling loop -/

/-- A completed run stops the loop at once: no fetch, render, or sleep. -/
lemma watchLoop_completed (opts : WatchOptions) (pr : String) (run : Run)
    (h : run.status = Completed) :
    ∀ iters, watchLoop opts pr run iters = (.done, [])
  | [] => by rw [watchLoop, if_pos h]
  | _ :: _ => by rw [watchLoop, if_pos h]

/-- One loop iteration on a not-yet-completed run with a fully successful
input: the iteration renders, sleeps, and the loop continues with the run the
iteration fetched. -/
lemma watchLoop_cons_okIter (opts : WatchOptions) (pr : String) (run : Run)
    (it : OkIter) (rest : List IterInput) (h : ¬ run.status = Completed) :
    watchLoop opts pr run (it.toInput :: rest) =
      ((watchLoop opts pr it.run rest).1,
        (renderRun opts run pr it.toInput).2 ++
          (.sleep (sleepNs opts.interval) :: (watchLoop opts pr it.run rest).2)) := by
  rw [watchLoop, if_neg h, renderRun_okIter]

/-- One loop iteration whose renderRun fails: the loop stops with that error
and that iteration's trace; nothing from the rest of the schedule runs. -/
lemma watchLoop_cons_err (opts : WatchOptions) (pr : String) (run : Run)
    (inp : IterInput) (rest : List IterInput) (e : String) (tr : List Event)
    (h : ¬ run.status = Completed)
    (hre : renderRun opts run pr inp = (.error e, tr)) :
    watchLoop opts pr run (inp :: rest) = (.failed e, tr) := by
  rw [watchLoop, if_neg h, hre]

/-- Running the loop over non-terminal snapshots followed by a completed one:
the loop succeeds, renders once per executed iteration (one per non-terminal
snapshot), sleeps after every iteration including the last, ends on that final
sleep, and consumes nothing beyond the completed snapshot. -/
lemma watchLoop_completion (opts : WatchOptions) (pr : String) (itLast : OkIter)
    (hlast : itLast.run.status = Completed) :
    ∀ (pre : List OkIter) (r0 : Run) (extra : List IterInput),
      r0.status ≠ Completed →
      (∀ it ∈ pre, it.run.status ≠ Completed) →
      watchLoop opts pr r0 (pre.map OkIter.toInput ++ [itLast.toInput] ++ extra) =
          watchLoop opts pr r0 (pre.map OkIter.toInput ++ [itLast.toInput])
        ∧ (watchLoop opts pr r0 (pre.map OkIter.toInput ++ [itLast.toInput])).1 = .done
        ∧ renderCount (watchLoop opts pr r0
            (pre.map OkIter.toInput ++ [itLast.toInput])).2 = pre.length + 1
        ∧ sleepCount (watchLoop opts pr r0
            (pre.map OkIter.toInput ++ [itLast.toInput])).2 = pre.length + 1
        ∧ (watchLoop opts pr r0
            (pre.map OkIter.toInput ++ [itLast.toInput])).2.getLast? =
            some (.sleep (sleepNs opts.interval)) := by
  intro pre
  induction pre with
  | nil =>
    intro r0 extra h0 _
    have e1 : ∀ rest, watchLoop opts pr r0 (itLast.toInput :: rest) =
        (.done, (renderRun opts r0 pr itLast.toInput).2 ++
          [.sleep (sleepNs opts.interval)]) := by
      intro rest
      rw [watchLoop_cons_okIter opts pr r0 itLast rest h0,
        watchLoop_completed opts pr itLast.run hlast]
    simp only [List.map_nil, List.nil_append, List.singleton_append]
    rw [e1 extra, e1 []]
    refine ⟨rfl, rfl, ?_, ?_, ?_⟩
    · rw [renderCount_append, renderRun_okIter_renderCount]
      simp [renderCount, isHeader]
    · rw [sleepCount_append, renderRun_okIter_sleepCount]
      simp [sleepCount, isSleep]
    · exact List.getLast?_concat _
  | cons it pre ih =>
    intro r0 extra h0 hpre
    have hit : it.run.status ≠ Completed := hpre it (by simp)
    have hpre2 : ∀ j ∈ pre, j.run.status ≠ Completed :=
      fun j hj => hpre j (by simp [hj])
    obtain ⟨ihEq, ihDone, ihR, ihS, ihLast⟩ := ih it.run extra hit hpre2
    have hne : (watchLoop opts pr it.run
        (pre.map OkIter.toInput ++ [itLast.toInput])).2 ≠ [] := by
      intro hnil
      rw [hnil] at ihLast
      simp at ihLast
    have e1 : watchLoop opts pr r0 (((it :: pre).map OkIter.toInput ++
        [itLast.toInput]) ++ extra) =
        ((watchLoop opts pr it.run (pre.map OkIter.toInput ++ [itLast.toInput])).1,
          (renderRun opts r0 pr it.toInput).2 ++
            (.sleep (sleepNs opts.interval) ::
              (watchLoop opts pr it.run (pre.map OkIter.toInput ++ [itLast.toInput])).2)) := by
      simp only [List.map_cons, List.cons_append]
      rw [watchLoop_cons_okIter opts pr r0 it _ h0, ihEq]
    have e2 : watchLoop opts pr r0 ((it :: pre).map OkIter.toInput ++
        [itLast.toInput]) =
        ((watchLoop opts pr it.run (pre.map OkIter.toInput ++ [itLast.toInput])).1,
          (renderRun opts r0 pr it.toInput).2 ++
            (.sleep (sleepNs opts.interval) ::
              (watchLoop opts pr it.run (pre.map OkIter.toInput ++ [itLast.toInput])).2)) := by
      simp only [List.map_cons, List.cons_append]
      rw [watchLoop_cons_okIter opts pr r0 it _ h0]
    rw [e1, e2]
    refine ⟨rfl, ihDone, ?_, ?_, ?_⟩
    · rw [show (Event.sleep (sleepNs opts.interval) ::
          (watchLoop opts pr it.run (pre.map OkIter.toInput ++ [itLast.toInput])).2) =
          [Event.sleep (sleepNs opts.interval)] ++
            (watchLoop opts pr it.run (pre.map OkIter.toInput ++ [itLast.toInput])).2
          from rfl,
        renderCount_append, renderCount_append, renderRun_okIter_renderCount, ihR]
      simp [renderCount, isHeader, List.length_cons]
      omega
    · rw [show (Event.sleep (sleepNs opts.interval) ::
          (watchLoop opts pr it.run (pre.map OkIter.toInput ++ [itLast.toInput])).2) =
          [Event.sleep (sleepNs opts.interval)] ++
            (watchLoop opts pr it.run (pre.map OkIter.toInput ++ [itLast.toInput])).2
          from rfl,
        sleepCount_append, sleepCount_append, renderRun_okIter_sleepCount, ihS]
      simp [sleepCount, isSleep, List.length_cons]
      omega
    · rw [show (Event.sleep (sleepNs opts.interval) ::
          (watchLoop opts pr it.run (pre.map OkIter.toInput ++ [itLast.toInput])).2) =
          [Event.sleep (sleepNs opts.interval)] ++
            (watchLoop opts pr it.run (pre.map OkIter.toInput ++ [itLast.toInput])).2
          from rfl]
      rw [List.getLast?_append_of_ne_nil _ (by simp [hne]),
        List.getLast?_append_of_ne_nil _ hne]
      exact ihLast

/-! ### Trace facts that hold for every iteration input -/

/-- When any fetch of the iteration fails, nothing at all is written to the
output stream in that iteration. -/
lemma renderRun_error_noOut (opts : WatchOptions) (run : Run) (pr : String)
    (inp : IterInput) (e : String)
    (h : (renderRun opts run pr inp).1 = .error e) :
    ∀ ev ∈ (renderRun opts run pr inp).2, isOut ev = false := by
  rcases inp with ⟨rr, jr, f⟩
  rcases rr with em | newRun
  · rw [renderRun_runErr]
    intro ev hev
    simp at hev
    simp [hev, isOut]
  · rcases jr with em | jobs
    · rw [renderRun_jobsErr]
      intro ev hev
      simp at hev
      rcases hev with hev | hev <;> simp [hev, isOut]
    · rcases hal : annotLoop f jobs 0 with ⟨res, aevs⟩
      rcases res with em | anns
      · rw [renderRun_annErr opts run pr newRun jobs f em aevs hal]
        intro ev hev
        simp at hev
        rcases hev with hev | hev | hev
        · simp [hev, isOut]
        · simp [hev, isOut]
        · have := annotLoop_events f jobs 0 ev (by rw [hal]; exact hev)
          rcases this with ⟨j, rfl⟩
          simp [isOut]
      · rw [renderRun_ok opts run pr newRun jobs f anns aevs hal] at h
        exact absurd h (by simp)

/-- In every iteration the trace is its fetch events followed by its output
events: all fetches happen before anything is written. -/
lemma renderRun_fetch_then_out (opts : WatchOptions) (run : Run) (pr : String)
    (inp : IterInput) :
    (renderRun opts run pr inp).2 =
      (renderRun opts run pr inp).2.filter (fun ev => !isOut ev) ++
        (renderRun opts run pr inp).2.filter isOut := by
  rcases inp with ⟨rr, jr, f⟩
  rcases rr with em | newRun
  · rw [renderRun_runErr]
    simp [isOut]
  · rcases jr with em | jobs
    · rw [renderRun_jobsErr]
      simp [isOut]
    · rcases hal : annotLoop f jobs 0 with ⟨res, aevs⟩
      have haevs : aevs = (annotLoop f jobs 0).2 := by rw [hal]
      rcases res with em | anns
      · rw [renderRun_annErr opts run pr newRun jobs f em aevs hal]
        simp only [List.filter_cons]
        rw [haevs, annotLoopEvs_nonOut, annotLoopEvs_noOut]
        simp [isOut]
      · rw [renderRun_ok opts run pr newRun jobs f anns aevs hal]
        by_cases hc : jobs = [] ∧ newRun.conclusion = Failure
        · rw [if_pos hc]
          simp only [List.append_nil, List.filter_cons, List.filter_append]
          rw [haevs, annotLoopEvs_nonOut, annotLoopEvs_noOut,
            headEvents_noNonOut, headEvents_allOut]
          simp [isOut]
        · rw [if_neg hc]
          simp only [List.filter_cons, List.filter_append]
          rw [haevs, annotLoopEvs_nonOut, annotLoopEvs_noOut,
            headEvents_noNonOut, headEvents_allOut,
            bodyEvents_noNonOut, bodyEvents_allOut]
          simp [isOut]

/-- The result of an iteration (the run it fetched, or its error) does not
depend on the pull-request suffix passed in; only the header text does. -/
lemma renderRun_fst_pr (opts : WatchOptions) (run : Run) (p q : String)
    (inp : IterInput) :
    (renderRun opts run p inp).1 = (renderRun opts run q inp).1 := by
  rcases inp with ⟨rr, jr, f⟩
  rcases rr with em | newRun
  · rw [renderRun_runErr, renderRun_runErr]
  · rcases jr with em | jobs
    · rw [renderRun_jobsErr, renderRun_jobsErr]
    · rcases hal : annotLoop f jobs 0 with ⟨res, aevs⟩
      rcases res with em | anns
      · rw [renderRun_annErr opts run p newRun jobs f em aevs hal,
          renderRun_annErr opts run q newRun jobs f em aevs hal]
      · rw [renderRun_ok opts run p newRun jobs f anns aevs hal,
          renderRun_ok opts run q newRun jobs f anns aevs hal]

/-- Every header the iteration writes carries exactly the pull-request suffix
it was given. -/
lemma renderRun_headerPrs (opts : WatchOptions) (run : Run) (pr : String)
    (inp : IterInput) :
    headerPrs (renderRun opts run pr inp).2 = [] ∨
      headerPrs (renderRun opts run pr inp).2 = [pr] := by
  rcases inp with ⟨rr, jr, f⟩
  rcases rr with em | newRun
  · rw [renderRun_runErr]
    left
    simp [headerPrs]
  · rcases jr with em | jobs
    · rw [renderRun_jobsErr]
      left
      simp [headerPrs]
    · rcases hal : annotLoop f jobs 0 with ⟨res, aevs⟩
      have haevs : aevs = (annotLoop f jobs 0).2 := by rw [hal]
      rcases res with em | anns
      · rw [renderRun_annErr opts run pr newRun jobs f em aevs hal]
        left
        rw [show (Event.fetchRun :: Event.fetchJobs :: aevs) =
          [Event.fetchRun, Event.fetchJobs] ++ aevs from rfl, headerPrs_append]
        rw [haevs, annotLoopEvs_headerPrs]
        simp [headerPrs]
      · rw [renderRun_ok opts run pr newRun jobs f anns aevs hal]
        right
        rw [show (Event.fetchRun :: Event.fetchJobs ::
          (aevs ++ headEvents opts pr newRun ++
            (if jobs = [] ∧ newRun.conclusion = Failure then []
             else bodyEvents jobs anns))) =
          [Event.fetchRun, Event.fetchJobs] ++
            (aevs ++ headEvents opts pr newRun ++
              (if jobs = [] ∧ newRun.conclusion = Failure then []
               else bodyEvents jobs anns)) from rfl]
        rw [headerPrs_append, headerPrs_append, headerPrs_append]
        rw [haevs, annotLoopEvs_headerPrs, headEvents_headerPrs]
        by_cases hc : jobs = [] ∧ newRun.conclusion = Failure
        · rw [if_pos hc]
          simp [headerPrs]
        · rw [if_neg hc, bodyEvents_headerPrs]
          simp [headerPrs]

/-- No iteration performs the pull-request lookup. -/
lemma renderRun_noPR (opts : WatchOptions) (run : Run) (pr : String)
    (inp : IterInput) :
    (renderRun opts run pr inp).2.filter isFetchPR = [] := by
  rcases inp with ⟨rr, jr, f⟩
  rcases rr with em | newRun
  · rw [renderRun_runErr]
    simp [isFetchPR]
  · rcases jr with em | jobs
    · rw [renderRun_jobsErr]
      simp [isFetchPR]
    · rcases hal : annotLoop f jobs 0 with ⟨res, aevs⟩
      have haevs : aevs = (annotLoop f jobs 0).2 := by rw [hal]
      rcases res with em | anns
      · rw [renderRun_annErr opts run pr newRun jobs f em aevs hal]
        simp only [List.filter_cons]
        rw [haevs, annotLoopEvs_noPR]
        simp [isFetchPR]
      · rw [renderRun_ok opts run pr newRun jobs f anns aevs hal]
        simp only [List.filter_cons, List.filter_append]
        rw [haevs, annotLoopEvs_noPR]
        by_cases hc : jobs = [] ∧ newRun.conclusion = Failure <;>
          simp [hc, isFetchPR, headEvents_noPR, bodyEvents_noPR]

/-! ### Loop-level facts -/

/-- One unfolding step of the loop on a not-yet-completed run. -/
lemma watchLoop_cons_eq (opts : WatchOptions) (pr : String) (run : Run)
    (inp : IterInput) (rest : List IterInput) (h : ¬ run.status = Completed) :
    watchLoop opts pr run (inp :: rest) =
      match renderRun opts run pr inp with
      | (.error e, tr) => (.failed e, tr)
      | (.ok newRun, tr) =>
        ((watchLoop opts pr newRun rest).1,
          tr ++ (.sleep (sleepNs opts.interval) :: (watchLoop opts pr newRun rest).2)) := by
  rw [watchLoop, if_neg h]

/-- The loop outcome does not depend on the pull-request suffix. -/
lemma watchLoop_fst_pr (opts : WatchOptions) (p q : String) :
    ∀ (iters : List IterInput) (run : Run),
      (watchLoop opts p run iters).1 = (watchLoop opts q run iters).1
  | [], run => by
    by_cases h : run.status = Completed <;> simp [watchLoop, h]
  | inp :: rest, run => by
    by_cases h : run.status = Completed
    · simp [watchLoop, h]
    · rcases hp : renderRun opts run p inp with ⟨rp, trp⟩
      rcases hq : renderRun opts run q inp with ⟨rq, trq⟩
      have hfst : rp = rq := by
        have h2 := renderRun_fst_pr opts run p q inp
        rw [hp, hq] at h2
        exact h2
      subst hfst
      rw [watchLoop_cons_eq opts p run inp rest h,
        watchLoop_cons_eq opts q run inp rest h, hp, hq]
      rcases rp with e | newRun
      · rfl
      · exact watchLoop_fst_pr opts p q rest newRun

/-- Every header the loop ever writes carries the pull-request suffix the loop
was given. -/
lemma watchLoop_headerPrs (opts : WatchOptions) (pr : String) :
    ∀ (iters : List IterInput) (run : Run) (s : String),
      s ∈ headerPrs (watchLoop opts pr run iters).2 → s = pr
  | [], run, s => by
    by_cases h : run.status = Completed <;> simp [watchLoop, h, headerPrs]
  | inp :: rest, run, s => by
    by_cases h : run.status = Completed
    · simp [watchLoop, h, headerPrs]
    · rw [watchLoop_cons_eq opts pr run inp rest h]
      rcases hre : renderRun opts run pr inp with ⟨res, tr⟩
      have htr : tr = (renderRun opts run pr inp).2 := by rw [hre]
      rcases res with e | newRun
      · intro hs
        simp only at hs
        rcases renderRun_headerPrs opts run pr inp with hh | hh <;>
          rw [htr, hh] at hs
        · simp at hs
        · simp at hs
          exact hs
      · intro hs
        simp only at hs
        rw [headerPrs_append] at hs
        rcases List.mem_append.mp hs with hs | hs
        · rcases renderRun_headerPrs opts run pr inp with hh | hh <;>
            rw [htr, hh] at hs
          · simp at hs
          · simp at hs
            exact hs
        · have hs2 : s ∈ headerPrs (watchLoop opts pr newRun rest).2 := by
            simpa [headerPrs] using hs
          exact watchLoop_headerPrs opts pr rest newRun s hs2

/-- The loop never performs the pull-request lookup. -/
lemma watchLoop_noPR (opts : WatchOptions) (pr : String) :
    ∀ (iters : List IterInput) (run : Run),
      (watchLoop opts pr run iters).2.filter isFetchPR = []
  | [], run => by
    by_cases h : run.status = Completed <;> simp [watchLoop, h]
  | inp :: rest, run => by
    by_cases h : run.status = Completed
    · simp [watchLoop, h]
    · rw [watchLoop_cons_eq opts pr run inp rest h]
      rcases hre : renderRun opts run pr inp with ⟨res, tr⟩
      have htr : tr = (renderRun opts run pr inp).2 := by rw [hre]
      rcases res with e | newRun
      · simp only
        rw [htr, renderRun_noPR]
      · simp only [List.filter_append, List.filter_cons]
        rw [htr, renderRun_noPR, watchLoop_noPR opts pr rest newRun]
        simp [isFetchPR]

/-- The loop never reports a usage error. -/
lemma watchLoop_ne_usage (opts : WatchOptions) (pr : String) :
    ∀ (iters : List IterInput) (run : Run) (msg : String),
      (watchLoop opts pr run iters).1 ≠ .usageError msg
  | [], run, msg => by
    by_cases h : run.status = Completed <;> simp [watchLoop, h]
  | inp :: rest, run, msg => by
    by_cases h : run.status = Completed
    · simp [watchLoop, h]
    · rw [watchLoop_cons_eq opts pr run inp rest h]
      rcases hre : renderRun opts run pr inp with ⟨res, tr⟩
      rcases res with e | newRun
      · simp
      · exact watchLoop_ne_usage opts pr rest newRun msg

/-- `annotsFrom` only inspects the responses at the positions it aggregates. -/
lemma annotsFrom_congr (f g : Nat → Except String (List Annot)) :
    ∀ (n i : Nat), (∀ k, k < n → f (i+k) = g (i+k)) →
      annotsFrom f n i = annotsFrom g n i
  | 0, _, _ => rfl
  | n+1, i, h => by
    have h0 := h 0 (by omega)
    rw [show i + 0 = i from rfl] at h0
    have ih := annotsFrom_congr f g n (i+1) (fun k hk => by
      have hk2 := h (k+1) (by omega)
      rwa [show i + (k+1) = i + 1 + k by omega] at hk2)
    rw [annotsFrom, annotsFrom, h0, ih]

/-! ### Concrete sample data -/

/-- A sample in-progress run. -/
def runA : Run := ⟨17, "in_progress", "", 3⟩

/-- The same run once completed successfully. -/
def runZ : Run := ⟨17, "completed", "success", 3⟩

/-- A run that failed before any job ran. -/
def runF : Run := ⟨17, "completed", "failure", 3⟩

/-- Sample jobs. -/
def job1 : Job := ⟨5, "build"⟩

def job2 : Job := ⟨6, "test"⟩

/-- Sample annotations. -/
def ann1 : Annot := ⟨5, "step failed", "failure"⟩

def ann2 : Annot := ⟨6, "deprecated action", "warning"⟩

/-- A successful iteration observing the run still in progress. -/
def iterA : OkIter := ⟨runA, [job1], [[ann1]]⟩

/-- A successful iteration observing the run completed. -/
def iterZ : OkIter := ⟨runZ, [job1], [[ann1]]⟩

/-- A successful iteration observing a failed run with no jobs. -/
def iterF : OkIter := ⟨runF, [], []⟩

/-! ### The claims -/

/-- C1: for every sequence of fetched run snapshots that ends in a completed
one (the initial fetch plus one fetch per loop iteration, all fetches
succeeding), the watch loop renders exactly once per non-terminal snapshot; the
loop body never executes when the initial fetch already reports completed; and
once a fetched run reports completed no further fetch or render occurs (the
trace is unchanged by anything scheduled after the completed snapshot). -/
theorem c1_one_render_per_nonterminal_snapshot
    (opts : WatchOptions) (pr : String) (r0 : Run) (pre : List OkIter)
    (itLast : OkIter) (extra : List IterInput)
    (h0 : r0.status ≠ Completed)
    (hpre : ∀ it ∈ pre, it.run.status ≠ Completed)
    (hlast : itLast.run.status = Completed) :
    (watchLoop opts pr r0 (pre.map OkIter.toInput ++ [itLast.toInput])).1 = .done
    ∧ renderCount (watchLoop opts pr r0
        (pre.map OkIter.toInput ++ [itLast.toInput])).2 = pre.length + 1
    ∧ watchLoop opts pr r0 (pre.map OkIter.toInput ++ [itLast.toInput] ++ extra)
        = watchLoop opts pr r0 (pre.map OkIter.toInput ++ [itLast.toInput])
    ∧ (∀ (r : Run) (iters : List IterInput), r.status = Completed →
        watchLoop opts pr r iters = (.done, [])) := by
  obtain ⟨hEq, hDone, hR, _, _⟩ :=
    watchLoop_completion opts pr itLast hlast pre r0 extra h0 hpre
  exact ⟨hDone, hR, hEq, fun r iters hr => watchLoop_completed opts pr r hr iters⟩

/-- Witness for C1: a concrete three-snapshot story (in-progress initial fetch,
one in-progress iteration, then completed), with one extra schedule entry that
is provably never consumed. -/
theorem c1_witness :
    runA.status ≠ Completed
    ∧ (∀ it ∈ [iterA], it.run.status ≠ Completed)
    ∧ runZ.status = Completed
    ∧ ((watchLoop ⟨2, 0⟩ "" runA
          ([iterA].map OkIter.toInput ++ [iterZ.toInput])).1 = .done
      ∧ renderCount (watchLoop ⟨2, 0⟩ "" runA
          ([iterA].map OkIter.toInput ++ [iterZ.toInput])).2 = 1 + 1
      ∧ watchLoop ⟨2, 0⟩ "" runA
          ([iterA].map OkIter.toInput ++ [iterZ.toInput] ++ [iterA.toInput])
          = watchLoop ⟨2, 0⟩ "" runA ([iterA].map OkIter.toInput ++ [iterZ.toInput])
      ∧ (∀ (r : Run) (iters : List IterInput), r.status = Completed →
          watchLoop ⟨2, 0⟩ "" r iters = (.done, []))) :=
  ⟨by decide, by decide, by decide,
    c1_one_render_per_nonterminal_snapshot ⟨2, 0⟩ "" runA [iterA] iterZ
      [iterA.toInput] (by decide) (by decide) (by decide)⟩

/-- C2: the claim states the inter-iteration sleep lasts Interval seconds
(default 2 seconds); the code passes time.Duration(Interval * 1000) to
time.Sleep, which is Interval * 1000 nanoseconds: at the default interval the
recorded sleep is 2000 ns (2 microseconds), not 2 seconds. -/
theorem c2_sleep_is_microseconds_not_seconds :
    sleepNs defaultInterval = 2000
    ∧ defaultInterval * nsPerSecond = 2000000000
    ∧ sleepNs defaultInterval ≠ defaultInterval * nsPerSecond
    ∧ Event.sleep 2000 ∈ (watchLoop ⟨defaultInterval, 0⟩ "" runA [iterZ.toInput]).2
    ∧ Event.sleep (defaultInterval * nsPerSecond) ∉
        (watchLoop ⟨defaultInterval, 0⟩ "" runA [iterZ.toInput]).2 := by
  refine ⟨rfl, rfl, by decide, by decide, by decide⟩

/-- Counterexample to C3: on a concrete schedule whose single iteration fetches
the completed run, the loop does not exit immediately after that iteration's
render: the trace still ends with a sleep event, performed after the render of
the completed snapshot and before the loop re-checks its condition. -/
theorem c3_counterexample :
    (watchLoop ⟨2, 0⟩ "" runA [iterZ.toInput]).2.getLast? =
        some (.sleep (sleepNs 2))
    ∧ sleepCount (watchLoop ⟨2, 0⟩ "" runA [iterZ.toInput]).2 = 1
    ∧ (watchLoop ⟨2, 0⟩ "" runA [iterZ.toInput]).1 = .done := by
  refine ⟨by decide, by decide, by decide⟩

/-- C3 amended: the sleep is unconditional at the end of every executed
iteration: the loop sleeps exactly once per executed iteration, including the
final iteration whose fetch returned the completed run, and the trace ends with
that final sleep; only after it does the loop re-check the status and exit. -/
theorem c3_sleep_follows_every_iteration
    (opts : WatchOptions) (pr : String) (r0 : Run) (pre : List OkIter)
    (itLast : OkIter)
    (h0 : r0.status ≠ Completed)
    (hpre : ∀ it ∈ pre, it.run.status ≠ Completed)
    (hlast : itLast.run.status = Completed) :
    sleepCount (watchLoop opts pr r0
        (pre.map OkIter.toInput ++ [itLast.toInput])).2 = pre.length + 1
    ∧ (watchLoop opts pr r0
        (pre.map OkIter.toInput ++ [itLast.toInput])).2.getLast?
        = some (.sleep (sleepNs opts.interval)) := by
  obtain ⟨_, _, _, hS, hL⟩ :=
    watchLoop_completion opts pr itLast hlast pre r0 [] h0 hpre
  exact ⟨hS, hL⟩

/-- Witness for the amended C3 at a concrete two-iteration schedule. -/
theorem c3_witness :
    runA.status ≠ Completed
    ∧ runZ.status = Completed
    ∧ (sleepCount (watchLoop ⟨2, 0⟩ "" runA
          ([iterA].map OkIter.toInput ++ [iterZ.toInput])).2 = 1 + 1
      ∧ (watchLoop ⟨2, 0⟩ "" runA
          ([iterA].map OkIter.toInput ++ [iterZ.toInput])).2.getLast?
          = some (.sleep (sleepNs 2))) :=
  ⟨by decide, by decide,
    c3_sleep_follows_every_iteration ⟨2, 0⟩ "" runA [iterA] iterZ
      (by decide) (by decide) (by decide)⟩

/-- C4: when every annotation fetch succeeds, the aggregate for N jobs with
per-job lists a1..aN is their in-order concatenation (so its length is the sum,
job order is preserved, nothing is deduplicated) and exactly one fetch happens
per job; when the fetch for job k is the first to fail, fetching stops at job k
(the fetch events cover exactly jobs 0..k), no annotations of later jobs are
aggregated, and the iteration returns the wrapped error. -/
theorem c4_annotations_concatenated_in_job_order
    (opts : WatchOptions) (run newRun : Run) (pr : String) (jobs : List Job)
    (f : Nat → Except String (List Annot)) :
    (∀ (anns : List (List Annot)), anns.length = jobs.length →
      (∀ k, k < jobs.length → f k = .ok (anns.getD k [])) →
      annotLoop f jobs 0 = (.ok anns.flatten, annEvents 0 jobs.length))
    ∧ (∀ (k : Nat) (e : String), k < jobs.length → f k = .error e →
        (∀ j, j < k → ∃ v, f j = .ok v) →
        annotLoop f jobs 0 = (.error e, annEvents 0 (k+1))
        ∧ renderRun opts run pr ⟨.ok newRun, .ok jobs, f⟩ =
            (.error ("failed to get annotations: " ++ e),
              .fetchRun :: .fetchJobs :: annEvents 0 (k+1))) := by
  constructor
  · intro anns hlen hok
    have h1 := annotLoop_allOk f jobs 0 (fun k hk =>
      ⟨anns.getD k [], by rw [show 0 + k = k from by omega]; exact hok k hk⟩)
    have h2 : annotsFrom f jobs.length 0 = anns.flatten := by
      rw [annotsFrom_congr f (fun j => .ok (anns.getD j [])) jobs.length 0
          (fun k hk => by rw [show 0 + k = k from by omega]; exact hok k hk),
        annotsFrom_getD anns jobs.length 0 (by omega), List.drop_zero]
    rw [h1, h2]
  · intro k e hk he hok
    have h1 := annotLoop_firstErr f jobs k 0 e hk
      (by rw [show 0 + k = k from by omega]; exact he)
      (fun j hj => by rw [show 0 + j = j from by omega]; exact hok j hj)
    exact ⟨h1, renderRun_annErr opts run pr newRun jobs f e _ h1⟩

/-- Witness for C4: two jobs; first both annotation fetches succeed and the
aggregate is the concatenation, then the fetch for the second job fails and
fetching stops there with the wrapped error. -/
theorem c4_witness :
    (annotLoop (fun j => .ok ([[ann1], [ann2]].getD j [])) [job1, job2] 0 =
        (.ok ([[ann1], [ann2]] : List (List Annot)).flatten, annEvents 0 2))
    ∧ (annotLoop (fun j => if j = 0 then .ok [ann1] else .error "kaput")
          [job1, job2] 0 = (.error "kaput", annEvents 0 2)
      ∧ renderRun ⟨2, 0⟩ runA ""
          ⟨.ok runZ, .ok [job1, job2],
            fun j => if j = 0 then .ok [ann1] else .error "kaput"⟩ =
          (.error ("failed to get annotations: " ++ "kaput"),
            .fetchRun :: .fetchJobs :: annEvents 0 2)) :=
  ⟨(c4_annotations_concatenated_in_job_order ⟨2, 0⟩ runA runZ "" [job1, job2]
      (fun j => .ok ([[ann1], [ann2]].getD j []))).1 [[ann1], [ann2]]
      (by decide) (fun k _ => rfl),
    (c4_annotations_concatenated_in_job_order ⟨2, 0⟩ runA runZ "" [job1, job2]
      (fun j => if j = 0 then .ok [ann1] else .error "kaput")).2 1 "kaput"
      (by decide) rfl
      (fun j hj => by
        match j, hj with
        | 0, _ => exact ⟨[ann1], rfl⟩)⟩

/-- C5: every failed fetch aborts the iteration with the stage-identifying
wrapped error: a failed run fetch stops after a single fetch event; a failed
jobs fetch stops after the run and jobs fetch events, so no annotation fetch
occurs in that iteration; a failed annotation fetch wraps its error; and a
failed iteration aborts the whole loop with that error — nothing from the rest
of the schedule is fetched or rendered, so no retry happens. -/
theorem c5_fetch_failure_aborts_watch
    (opts : WatchOptions) (run : Run) (pr : String) :
    (∀ (e : String) (jr : Except String (List Job))
        (f : Nat → Except String (List Annot)),
      renderRun opts run pr ⟨.error e, jr, f⟩ =
        (.error ("failed to get run: " ++ e), [.fetchRun]))
    ∧ (∀ (newRun : Run) (e : String) (f : Nat → Except String (List Annot)),
      renderRun opts run pr ⟨.ok newRun, .error e, f⟩ =
        (.error ("failed to get jobs: " ++ e), [.fetchRun, .fetchJobs]))
    ∧ (∀ (newRun : Run) (jobs : List Job) (f : Nat → Except String (List Annot))
        (e : String) (aevs : List Event),
      annotLoop f jobs 0 = (.error e, aevs) →
      renderRun opts run pr ⟨.ok newRun, .ok jobs, f⟩ =
        (.error ("failed to get annotations: " ++ e),
          .fetchRun :: .fetchJobs :: aevs))
    ∧ (∀ (inp : IterInput) (msg : String) (tr : List Event)
        (rest : List IterInput),
      run.status ≠ Completed →
      renderRun opts run pr inp = (.error msg, tr) →
      watchLoop opts pr run (inp :: rest) = (.failed msg, tr)) :=
  ⟨fun e jr f => renderRun_runErr opts run pr e jr f,
    fun newRun e f => renderRun_jobsErr opts run pr newRun e f,
    fun newRun jobs f e aevs h => renderRun_annErr opts run pr newRun jobs f e aevs h,
    fun inp msg tr rest h hre => watchLoop_cons_err opts pr run inp rest msg tr h hre⟩

/-- Witness for C5: the jobs fetch fails on the second loop iteration; the loop
aborts with the wrapped error and the failed iteration performed no annotation
fetch. -/
theorem c5_witness :
    (renderRun ⟨2, 0⟩ runA "" ⟨.ok runA, .error "net down", fun _ => .ok []⟩ =
        (.error ("failed to get jobs: " ++ "net down"),
          [.fetchRun, .fetchJobs]))
    ∧ runA.status ≠ Completed
    ∧ watchLoop ⟨2, 0⟩ "" runA
        [⟨.ok runA, .error "net down", fun _ => .ok []⟩] =
        (.failed ("failed to get jobs: " ++ "net down"),
          [.fetchRun, .fetchJobs]) :=
  ⟨(c5_fetch_failure_aborts_watch ⟨2, 0⟩ runA "").2.1 runA "net down"
      (fun _ => .ok []),
    by decide,
    (c5_fetch_failure_aborts_watch ⟨2, 0⟩ runA "").2.2.2
      ⟨.ok runA, .error "net down", fun _ => .ok []⟩
      ("failed to get jobs: " ++ "net down") [.fetchRun, .fetchJobs] []
      (by decide)
      ((c5_fetch_failure_aborts_watch ⟨2, 0⟩ runA "").2.1 runA "net down"
        (fun _ => .ok []))⟩

/-- C6: in an iteration whose fetch returns a run with an empty job list and a
failure conclusion, the render stops after the header: it returns the fetched
run without error, its trace is exactly the two fetch events plus the header
block — in particular no JOBS title, no job table and no annotations section
are written — and the loop then continues its termination check with exactly
that fetched run. -/
theorem c6_empty_jobs_failed_run_renders_header_only
    (opts : WatchOptions) (pr : String) (run : Run) (it : OkIter)
    (rest : List IterInput)
    (hjobs : it.jobs = []) (hconc : it.run.conclusion = Failure)
    (hrun : run.status ≠ Completed) :
    (renderRun opts run pr it.toInput).1 = .ok it.run
    ∧ (renderRun opts run pr it.toInput).2 =
        .fetchRun :: .fetchJobs :: headEvents opts pr it.run
    ∧ (∀ ev ∈ (renderRun opts run pr it.toInput).2,
        ev ≠ .out .jobsTitle ∧ (∀ js, ev ≠ .out (.jobsList js)) ∧
        ev ≠ .out .annTitle ∧ (∀ asl, ev ≠ .out (.annList asl)))
    ∧ watchLoop opts pr run (it.toInput :: rest) =
        ((watchLoop opts pr it.run rest).1,
          (renderRun opts run pr it.toInput).2 ++
            (.sleep (sleepNs opts.interval) ::
              (watchLoop opts pr it.run rest).2)) := by
  have htr : (renderRun opts run pr it.toInput).2 =
      .fetchRun :: .fetchJobs :: headEvents opts pr it.run := by
    rw [renderRun_okIter, if_pos ⟨hjobs, hconc⟩, hjobs]
    simp [annEvents]
  refine ⟨renderRun_okIter_fst opts run pr it, htr, ?_,
    watchLoop_cons_okIter opts pr run it rest hrun⟩
  rw [htr]
  intro ev hev
  simp only [headEvents] at hev
  fin_cases hev <;>
    exact ⟨by simp, fun js => by simp, by simp, fun asl => by simp⟩

/-- Witness for C6 at a concrete run that failed before any job ran. -/
theorem c6_witness :
    iterF.jobs = [] ∧ iterF.run.conclusion = Failure ∧ runA.status ≠ Completed
    ∧ ((renderRun ⟨2, 0⟩ runA "" iterF.toInput).1 = .ok runF
      ∧ (renderRun ⟨2, 0⟩ runA "" iterF.toInput).2 =
          .fetchRun :: .fetchJobs :: headEvents ⟨2, 0⟩ "" runF
      ∧ (∀ ev ∈ (renderRun ⟨2, 0⟩ runA "" iterF.toInput).2,
          ev ≠ .out .jobsTitle ∧ (∀ js, ev ≠ .out (.jobsList js)) ∧
          ev ≠ .out .annTitle ∧ (∀ asl, ev ≠ .out (.annList asl)))
      ∧ watchLoop ⟨2, 0⟩ "" runA [iterF.toInput] =
          ((watchLoop ⟨2, 0⟩ "" runF []).1,
            (renderRun ⟨2, 0⟩ runA "" iterF.toInput).2 ++
              (.sleep (sleepNs 2) :: (watchLoop ⟨2, 0⟩ "" runF []).2))) :=
  ⟨rfl, rfl, by decide,
    c6_empty_jobs_failed_run_renders_header_only ⟨2, 0⟩ "" runA iterF []
      rfl rfl (by decide)⟩

/-- C7: an iteration writes nothing until every fetch of that iteration has
succeeded: when any fetch fails the iteration trace contains no output event at
all, and in every iteration the trace is its non-output (fetch) events followed
by its output events — the cursor control codes and the report text come only
after the run, jobs and annotation fetches. -/
theorem c7_no_partial_render_on_fetch_failure
    (opts : WatchOptions) (run : Run) (pr : String) (inp : IterInput) :
    (∀ e, (renderRun opts run pr inp).1 = .error e →
      ∀ ev ∈ (renderRun opts run pr inp).2, isOut ev = false)
    ∧ (renderRun opts run pr inp).2 =
        (renderRun opts run pr inp).2.filter (fun ev => !isOut ev) ++
          (renderRun opts run pr inp).2.filter isOut :=
  ⟨fun e he => renderRun_error_noOut opts run pr inp e he,
    renderRun_fetch_then_out opts run pr inp⟩

/-- Witness for C7 at a concrete failing jobs fetch and at a concrete fully
successful iteration. -/
theorem c7_witness :
    (∀ ev ∈ (renderRun ⟨2, 0⟩ runA ""
        ⟨.ok runA, .error "net down", fun _ => .ok []⟩).2, isOut ev = false)
    ∧ (renderRun ⟨2, 0⟩ runA "" iterZ.toInput).2 =
        (renderRun ⟨2, 0⟩ runA "" iterZ.toInput).2.filter (fun ev => !isOut ev) ++
          (renderRun ⟨2, 0⟩ runA "" iterZ.toInput).2.filter isOut :=
  ⟨(c7_no_partial_render_on_fetch_failure ⟨2, 0⟩ runA ""
      ⟨.ok runA, .error "net down", fun _ => .ok []⟩).1
      ("failed to get jobs: " ++ "net down") rfl,
    (c7_no_partial_render_on_fetch_failure ⟨2, 0⟩ runA "" iterZ.toInput).2⟩

/-! ### Unfolding watchRun -/

/-- watchRun without prompting: the initial fetch then, when it succeeds, the
pull-request lookup, one screen clear, and the loop. -/
lemma watchRun_noPrompt (opts : WatchOptions) (w : WatchInput) :
    watchRun opts false w =
      match w.initRunResp with
      | .error e => (.failed ("failed to get run: " ++ e), [.fetchRun])
      | .ok run =>
        ((watchLoop opts (prNumberOf w.prResp) run w.iters).1,
          .fetchRun :: .fetchPR :: .out .clearScreen ::
            (watchLoop opts (prNumberOf w.prResp) run w.iters).2) := by
  rcases hr : w.initRunResp with e | run <;> simp [watchRun, hr]

/-- watchRun with prompting: a failed prompt is returned unwrapped; a
successful one is followed by exactly the non-prompting behaviour. -/
lemma watchRun_prompt (opts : WatchOptions) (w : WatchInput) :
    watchRun opts true w =
      match w.promptResp with
      | .error e => (.failed e, [.prompt])
      | .ok _ =>
        ((watchRun opts false w).1, .prompt :: (watchRun opts false w).2) := by
  rcases hp : w.promptResp with e | s <;> simp [watchRun, hp]

/-- C8: the pull-request lookup is the only swallowed failure: when it fails
the watch continues with an empty suffix — the outcome is exactly the loop's
outcome, every rendered header carries the empty suffix, and the outcome never
depends on the lookup's response at all — while a successful lookup puts
" #number" in every rendered header; by contrast a failed prompt or a failed
initial run fetch is surfaced as the command's error. -/
theorem c8_pr_lookup_is_only_swallowed_failure
    (opts : WatchOptions) (w : WatchInput) (r : Run)
    (hinit : w.initRunResp = .ok r) :
    (∀ e, w.prResp = .error e →
      (watchRun opts false w).1 = (watchLoop opts "" r w.iters).1
      ∧ ∀ s ∈ headerPrs (watchRun opts false w).2, s = "")
    ∧ (∀ n, w.prResp = .ok n →
      ∀ s ∈ headerPrs (watchRun opts false w).2, s = " #" ++ toString n)
    ∧ (∀ p1 p2 : Except String Int,
      (watchRun opts false ⟨w.promptResp, w.initRunResp, p1, w.iters⟩).1 =
        (watchRun opts false ⟨w.promptResp, w.initRunResp, p2, w.iters⟩).1)
    ∧ (∀ (e : String) (w2 : WatchInput), w2.initRunResp = .error e →
      (watchRun opts false w2).1 = .failed ("failed to get run: " ++ e))
    ∧ (∀ (e : String) (w2 : WatchInput), w2.promptResp = .error e →
      (watchRun opts true w2).1 = .failed e) := by
  have hbase : watchRun opts false w =
      ((watchLoop opts (prNumberOf w.prResp) r w.iters).1,
        .fetchRun :: .fetchPR :: .out .clearScreen ::
          (watchLoop opts (prNumberOf w.prResp) r w.iters).2) := by
    rw [watchRun_noPrompt, hinit]
  refine ⟨?_, ?_, ?_, ?_, ?_⟩
  · intro e he
    rw [hbase, he]
    constructor
    · rfl
    · intro s hs
      simp only [headerPrs, List.filterMap_cons] at hs
      exact watchLoop_headerPrs opts (prNumberOf (.error e)) w.iters r s hs
  · intro n hn s hs
    rw [hbase, hn] at hs
    simp only [headerPrs, List.filterMap_cons] at hs
    exact watchLoop_headerPrs opts (prNumberOf (.ok n)) w.iters r s hs
  · intro p1 p2
    have h1 : (⟨w.promptResp, w.initRunResp, p1, w.iters⟩ : WatchInput).initRunResp
        = .ok r := hinit
    rw [watchRun_noPrompt, watchRun_noPrompt, h1]
    exact watchLoop_fst_pr opts (prNumberOf p1) (prNumberOf p2) w.iters r
  · intro e w2 he
    rw [watchRun_noPrompt, he]
  · intro e w2 he
    rw [watchRun_prompt, he]

/-- Witness for C8: a failed lookup leaves the loop outcome untouched and an
empty suffix in the rendered header; a successful lookup of PR 12 stamps
" #12" on the header. -/
theorem c8_witness :
    ((watchRun ⟨2, 0⟩ false ⟨.ok "17", .ok runA, .error "no pr", [iterZ.toInput]⟩).1 =
        (watchLoop ⟨2, 0⟩ "" runA [iterZ.toInput]).1
      ∧ ∀ s ∈ headerPrs (watchRun ⟨2, 0⟩ false
          ⟨.ok "17", .ok runA, .error "no pr", [iterZ.toInput]⟩).2, s = "")
    ∧ (∀ s ∈ headerPrs (watchRun ⟨2, 0⟩ false
        ⟨.ok "17", .ok runA, .ok 12, [iterZ.toInput]⟩).2, s = " #" ++ toString (12 : Int)) :=
  ⟨(c8_pr_lookup_is_only_swallowed_failure ⟨2, 0⟩
      ⟨.ok "17", .ok runA, .error "no pr", [iterZ.toInput]⟩ runA rfl).1
      "no pr" rfl,
    (c8_pr_lookup_is_only_swallowed_failure ⟨2, 0⟩
      ⟨.ok "17", .ok runA, .ok 12, [iterZ.toInput]⟩ runA rfl).2.1
      12 rfl⟩

/-- C9: with the run-selector argument omitted, a session that cannot prompt
gets a usage (flag) error before anything is fetched (the trace is empty),
while a session that can prompt proceeds into watchRun, whose first recorded
step is the interactive run-selection prompt, and no usage error is ever
raised. -/
theorem c9_omitted_selector_prompts_or_usage_error
    (opts : WatchOptions) (w : WatchInput) :
    runCmd opts [] false w =
        (.usageError "run ID required when not running interactively", [])
    ∧ runCmd opts [] true w = watchRun opts true w
    ∧ (watchRun opts true w).2.head? = some .prompt
    ∧ (∀ msg, (runCmd opts [] true w).1 ≠ .usageError msg) := by
  refine ⟨rfl, rfl, ?_, ?_⟩
  · rw [watchRun_prompt]
    rcases hp : w.promptResp with e | s
    · rfl
    · rfl
  · intro msg
    show (watchRun opts true w).1 ≠ .usageError msg
    rw [watchRun_prompt]
    rcases hp : w.promptResp with e | s
    · simp
    · simp only
      rw [watchRun_noPrompt]
      rcases hr : w.initRunResp with e | run
      · simp
      · simp only
        exact watchLoop_ne_usage opts (prNumberOf w.prResp) w.iters run msg

/-- Witness for C9 at a concrete input. -/
theorem c9_witness :
    runCmd ⟨2, 0⟩ [] false ⟨.ok "17", .ok runA, .ok 12, [iterZ.toInput]⟩ =
        (.usageError "run ID required when not running interactively", [])
    ∧ runCmd ⟨2, 0⟩ [] true ⟨.ok "17", .ok runA, .ok 12, [iterZ.toInput]⟩ =
        watchRun ⟨2, 0⟩ true ⟨.ok "17", .ok runA, .ok 12, [iterZ.toInput]⟩
    ∧ (watchRun ⟨2, 0⟩ true
        ⟨.ok "17", .ok runA, .ok 12, [iterZ.toInput]⟩).2.head? = some .prompt
    ∧ (∀ msg, (runCmd ⟨2, 0⟩ [] true
        ⟨.ok "17", .ok runA, .ok 12, [iterZ.toInput]⟩).1 ≠ .usageError msg) :=
  c9_omitted_selector_prompts_or_usage_error ⟨2, 0⟩
    ⟨.ok "17", .ok runA, .ok 12, [iterZ.toInput]⟩

/-- C10: the pull-request lookup happens exactly once, immediately after the
initial run fetch and before the screen clear and the loop; every header
rendered in any iteration carries the suffix computed from that single lookup,
so a PR association appearing later is never reflected. -/
theorem c10_pr_lookup_once_before_loop
    (opts : WatchOptions) (w : WatchInput) (r : Run)
    (hinit : w.initRunResp = .ok r) :
    ((watchRun opts false w).2.filter isFetchPR).length = 1
    ∧ (watchRun opts false w).2.head? = some .fetchRun
    ∧ (watchRun opts false w).2.tail.head? = some .fetchPR
    ∧ (∀ s ∈ headerPrs (watchRun opts false w).2, s = prNumberOf w.prResp) := by
  have hbase : watchRun opts false w =
      ((watchLoop opts (prNumberOf w.prResp) r w.iters).1,
        .fetchRun :: .fetchPR :: .out .clearScreen ::
          (watchLoop opts (prNumberOf w.prResp) r w.iters).2) := by
    rw [watchRun_noPrompt, hinit]
  rw [hbase]
  refine ⟨?_, rfl, rfl, ?_⟩
  · simp only [List.filter_cons]
    rw [watchLoop_noPR opts (prNumberOf w.prResp) w.iters r]
    simp [isFetchPR]
  · intro s hs
    simp only [headerPrs, List.filterMap_cons] at hs
    exact watchLoop_headerPrs opts (prNumberOf w.prResp) w.iters r s hs

/-- Witness for C10 at a concrete input. -/
theorem c10_witness :
    ((watchRun ⟨2, 0⟩ false
        ⟨.ok "17", .ok runA, .ok 12, [iterZ.toInput]⟩).2.filter isFetchPR).length = 1
    ∧ (watchRun ⟨2, 0⟩ false
        ⟨.ok "17", .ok runA, .ok 12, [iterZ.toInput]⟩).2.head? = some .fetchRun
    ∧ (watchRun ⟨2, 0⟩ false
        ⟨.ok "17", .ok runA, .ok 12, [iterZ.toInput]⟩).2.tail.head? = some .fetchPR
    ∧ (∀ s ∈ headerPrs (watchRun ⟨2, 0⟩ false
        ⟨.ok "17", .ok runA, .ok 12, [iterZ.toInput]⟩).2,
        s = prNumberOf (.ok 12)) :=
  c10_pr_lookup_once_before_loop ⟨2, 0⟩
    ⟨.ok "17", .ok runA, .ok 12, [iterZ.toInput]⟩ runA rfl

end Watch
